import Mathlib

/-!
Shallow embedding of the caddy-placeholder-dump module
(src/placeholder-dump.go, src/caddyfile.go) and proofs about it.

The module is an HTTP middleware: per request it resolves a content
template against the request's placeholder replacer, and emits the
trimmed result to an optional file sink and/or an optional logger sink,
then always delegates to the next handler.

External collaborators (the caddy replacer, the zap logger backend and
the OS file layer) are modelled explicitly: the replacer as an
association list of placeholder values together with a brace scanner,
the logger as an append-only list of structured records, and the file
system as an association list from paths to (mode, contents) pairs with
an error environment deciding whether open/write calls fail.
-/

namespace PlaceholderDump

/-- Modelled from the spec: "Placeholder/template resolution:
substitution of named variables embedded in a string with runtime
request-scoped values."  A replacer is the request-scoped variable set:
an association list from placeholder names to their values; names
absent from the list are the placeholders that cannot be resolved. -/
def Repl : Type := List (String × String)

/-- Look a placeholder name up in the replacer's variable set. -/
def lookupRepl : List (String × String) → String → Option String
  | [], _ => none
  | (k, v) :: rest, key => if key = k then some v else lookupRepl rest key

/-- Scan for the closing brace of a placeholder: on `key ++ '}' :: rest`
returns the key and the remainder; `none` when no closing brace exists. -/
def takeKey : List Char → Option (List Char × List Char)
  | [] => none
  | c :: rest =>
    if c = '}' then some ([], rest)
    else (takeKey rest).map (fun p => (c :: p.1, p.2))

/-- Modelled from the spec: the external replacer's `ReplaceAll` scan,
on character lists, with fuel (one unit per emitted chunk).  A placeholder
delimited by braces is replaced by its value from the variable set, or by
the `empty` argument when it cannot be resolved; a lone opening brace with
no closing brace is kept verbatim. -/
def replaceChars (repl : List (String × String)) (empty : List Char) :
    Nat → List Char → List Char
  | 0, l => l
  | _ + 1, [] => []
  | f + 1, c :: rest =>
    if c = '{' then
      match takeKey rest with
      | some (key, after) =>
        (match lookupRepl repl (String.mk key) with
         | some v => v.data
         | none => empty) ++ replaceChars repl empty f after
      | none => c :: rest
    else c :: replaceChars repl empty f rest

/-- Modelled from the spec: `caddy.Replacer.ReplaceAll(input, empty)` —
replaces every placeholder in `input`, substituting `empty` for
placeholders that cannot be resolved. -/
def ReplaceAll (repl : Repl) (input empty : String) : String :=
  String.mk (replaceChars repl empty.data input.data.length input.data)

/-- Whitespace test of Go's `unicode.IsSpace` restricted to Latin-1,
as used by `strings.TrimSpace`. -/
def isSpaceGo (c : Char) : Bool :=
  c = ' ' || c = '\t' || c = '\n' || c = '\x0b' || c = '\x0c' || c = '\r' ||
  c = '\x85' || c = '\xa0'

/-- Go's `strings.TrimSpace`: drop leading and trailing whitespace. -/
def TrimSpace (s : String) : String :=
  String.mk (((s.data.dropWhile isSpaceGo).reverse.dropWhile isSpaceGo).reverse)

/-- The module configuration (struct `PlaceholderDump` of
src/placeholder-dump.go).  The `FilePermissions` field is the one
assigned by the `file_permissions` case of `UnmarshalCaddyfile`
(src/caddyfile.go); the struct declaration in src/placeholder-dump.go
does not declare it and `ServeHTTP` never reads it. -/
structure Config where
  File : String := ""
  LoggerSuffix : String := ""
  Content : String := ""
  FilePermissions : String := ""
deriving DecidableEq

/-- Log levels of the zap logger calls made by the module. -/
inductive LogLevel
  | debug
  | info
  | warn
  | error
deriving DecidableEq

/-- One structured log record: level, logger name, message and
string-valued fields (zap.String / zap.Error). -/
structure LogRecord where
  level : LogLevel
  logger : String
  msg : String
  fields : List (String × String)
deriving DecidableEq

/-- A file on disk: creation mode bits and current contents. -/
structure FileData where
  mode : Nat
  content : String
deriving DecidableEq

/-- The observable world: the file system (paths to files) and the
sequence of log records emitted so far. -/
structure World where
  fs : List (String × FileData)
  logs : List LogRecord
deriving DecidableEq

/-- Look a path up in the file system. -/
def fsFind : List (String × FileData) → String → Option FileData
  | [], _ => none
  | (q, f) :: rest, p => if p = q then some f else fsFind rest p

/-- Effect of `os.OpenFile(p, O_APPEND|O_WRONLY|O_CREATE, mode)` on the
file system: create the file with the given mode when absent, leave it
untouched when present. -/
def fsCreate (fs : List (String × FileData)) (p : String) (mode : Nat) :
    List (String × FileData) :=
  match fsFind fs p with
  | some _ => fs
  | none => fs ++ [(p, ⟨mode, ""⟩)]

/-- Effect of a successful append-mode `WriteString`: append `s` to the
contents of the file at `p`. -/
def fsAppend : List (String × FileData) → String → String → List (String × FileData)
  | [], _, _ => []
  | (q, f) :: rest, p, s =>
    if p = q then (q, ⟨f.mode, f.content ++ s⟩) :: rest
    else (q, f) :: fsAppend rest p s

/-- Contents of the file at `p`, the empty string when absent. -/
def fsContent (fs : List (String × FileData)) (p : String) : String :=
  match fsFind fs p with
  | some f => f.content
  | none => ""

/-- I/O error environment: whether (and with which message) the
`os.OpenFile` call and the `WriteString` call fail for a given path. -/
structure IOEnv where
  openErr : String → Option String
  writeErr : String → Option String

/-- The error-free environment. -/
def envNoErr : IOEnv := ⟨fun _ => none, fun _ => none⟩

/-- Logger name installed by `Provision` via `ctx.Logger(m)`: the module ID. -/
def baseLoggerName : String := "http.handlers.placeholder_dump"

/-- zap's `Logger.Named`: join the new name fragment onto the base name
with a period (or use it alone when the base name is empty). -/
def Named (base s : String) : String :=
  if base = "" then s else base ++ "." ++ s

/-- The warning emitted when the resolved content is empty (line 102). -/
def emptyWarnRecord : LogRecord :=
  ⟨.warn, baseLoggerName, "Resolved content is empty; skipping processing", []⟩

/-- The informational record of the logger sink (line 108). -/
def contentInfoRecord (suffix c : String) : LogRecord :=
  ⟨.info, Named baseLoggerName suffix, "Logging resolved content", [("content", c)]⟩

/-- The error record for a failed file open (line 122). -/
def openErrorRecord (p e : String) : LogRecord :=
  ⟨.error, baseLoggerName, "Failed to open file", [("file", p), ("error", e)]⟩

/-- The error record for a failed file write (line 129). -/
def writeErrorRecord (e : String) : LogRecord :=
  ⟨.error, baseLoggerName, "Failed to write to file", [("error", e)]⟩

/-- The debug record for a successful file write (line 131). -/
def wroteDebugRecord (p c : String) : LogRecord :=
  ⟨.debug, baseLoggerName, "Wrote content to file", [("file", p), ("content", c)]⟩

/-- What `ServeHTTP` returns to the pipeline: either its own
`caddyhttp.Error(status, nil)` or the result of `next.ServeHTTP(w, r)`
(the next handler's error value, `none` for nil). -/
inductive ServeReturn
  | caddyErr (status : Nat)
  | fromNext (e : Option String)
deriving DecidableEq

/-- Return value of `ServeHTTP` together with the world it leaves behind. -/
structure ServeOutcome where
  ret : ServeReturn
  world : World
deriving DecidableEq

/-- The hardcoded `const filePermissions = 0644` of ServeHTTP (line 119). -/
def filePermissionsConst : Nat := 0o644

/-- ServeHTTP of src/placeholder-dump.go (lines 89-136), as a function of
the configuration, the replacer carried by the request context (`none`
when the context value is absent or of the wrong type), the I/O error
environment, the next handler's result, and the current world.  The
per-instance mutex and the deferred close only serialize the file
section and release the handle; in this sequential model an invocation
is already atomic, so they have no further effect. -/
def ServeHTTP (m : Config) (ctxRepl : Option Repl) (env : IOEnv)
    (next : Option String) (w : World) : ServeOutcome :=
  match ctxRepl with
  | none => ⟨.caddyErr 500, w⟩
  | some repl =>
    let resolvedContent := TrimSpace (ReplaceAll repl m.Content "")
    if resolvedContent = "" then
      ⟨.fromNext next, ⟨w.fs, w.logs ++ [emptyWarnRecord]⟩⟩
    else
      let w1 : World :=
        if m.LoggerSuffix ≠ "" then
          ⟨w.fs, w.logs ++ [contentInfoRecord m.LoggerSuffix resolvedContent]⟩
        else w
      let resolvedFile := ReplaceAll repl m.File ""
      if resolvedFile ≠ "" then
        match env.openErr resolvedFile with
        | some e =>
          ⟨.fromNext next, ⟨w1.fs, w1.logs ++ [openErrorRecord resolvedFile e]⟩⟩
        | none =>
          let fs1 := fsCreate w1.fs resolvedFile filePermissionsConst
          match env.writeErr resolvedFile with
          | some e =>
            ⟨.fromNext next, ⟨fs1, w1.logs ++ [writeErrorRecord e]⟩⟩
          | none =>
            ⟨.fromNext next,
             ⟨fsAppend fs1 resolvedFile (resolvedContent ++ "\n"),
              w1.logs ++ [wroteDebugRecord resolvedFile resolvedContent]⟩⟩
      else ⟨.fromNext next, w1⟩

/-- Validate of src/placeholder-dump.go (lines 77-86): `some` an error
message exactly when the configuration is rejected. -/
def Validate (m : Config) : Option String :=
  if m.File = "" && m.LoggerSuffix = "" then
    some "either file or logger_suffix must be set"
  else if m.Content = "" then
    some "content must be set"
  else none

/-- UnmarshalCaddyfile of src/caddyfile.go (lines 41-71), over the block's
option/argument pairs. -/
def UnmarshalCaddyfile (m : Config) : List (String × String) → Except String Config
  | [] => .ok m
  | (opt, arg) :: rest =>
    if opt = "file" then UnmarshalCaddyfile { m with File := arg } rest
    else if opt = "file_permissions" then
      UnmarshalCaddyfile { m with FilePermissions := arg } rest
    else if opt = "logger_suffix" then
      UnmarshalCaddyfile { m with LoggerSuffix := arg } rest
    else if opt = "content" then UnmarshalCaddyfile { m with Content := arg } rest
    else .error ("unknown option: " ++ opt)

/-- Log records appended by the logger sink in one invocation with
resolved content `c`: one informational record when the suffix is
configured, none otherwise. -/
def loggerSinkLogs (m : Config) (c : String) : List LogRecord :=
  if m.LoggerSuffix = "" then [] else [contentInfoRecord m.LoggerSuffix c]

/-- One request seen by an instance: its replacer, its I/O error
environment, and the result the next handler will give. -/
structure Invocation where
  repl : Repl
  env : IOEnv
  next : Option String

/-- Run a sequence of requests through one instance (the instance mutex
serializes the file section, so invocations of a single instance apply
in order). -/
def runInvocations (m : Config) : List Invocation → World → World
  | [], w => w
  | inv :: rest, w =>
    runInvocations m rest (ServeHTTP m (some inv.repl) inv.env inv.next w).world

/-! Basic facts about the file-system model. -/

theorem fsFind_append_of_none {fs : List (String × FileData)} {p : String}
    (h : fsFind fs p = none) (x : FileData) :
    fsFind (fs ++ [(p, x)]) p = some x := by
  induction fs with
  | nil => simp [fsFind]
  | cons hd tl ih =>
    obtain ⟨q, f⟩ := hd
    by_cases hpq : p = q
    · simp [fsFind, hpq] at h
    · simp only [fsFind, List.cons_append, if_neg hpq] at h ⊢
      exact ih h

theorem fsFind_fsCreate (fs : List (String × FileData)) (p : String) (mode : Nat) :
    fsFind (fsCreate fs p mode) p = some ((fsFind fs p).getD ⟨mode, ""⟩) := by
  unfold fsCreate
  cases h : fsFind fs p with
  | some f => simp [h]
  | none => simp [fsFind_append_of_none h]

theorem fsFind_fsAppend (fs : List (String × FileData)) (p s : String) :
    fsFind (fsAppend fs p s) p
      = (fsFind fs p).map (fun f => ⟨f.mode, f.content ++ s⟩) := by
  induction fs with
  | nil => simp [fsFind, fsAppend]
  | cons hd tl ih =>
    obtain ⟨q, f⟩ := hd
    by_cases hpq : p = q
    · simp [fsFind, fsAppend, hpq]
    · simp only [fsFind, fsAppend, if_neg hpq]
      exact ih

theorem fsContent_create_append (fs : List (String × FileData))
    (p s : String) (mode : Nat) :
    fsContent (fsAppend (fsCreate fs p mode) p s) p = fsContent fs p ++ s := by
  unfold fsContent
  rw [fsFind_fsAppend, fsFind_fsCreate]
  cases h : fsFind fs p <;> simp

/-! Case-by-case characterization of `ServeHTTP` with a replacer present. -/

theorem ServeHTTP_skip (m : Config) (repl : Repl) (env : IOEnv)
    (next : Option String) (w : World)
    (h : TrimSpace (ReplaceAll repl m.Content "") = "") :
    ServeHTTP m (some repl) env next w
      = ⟨.fromNext next, ⟨w.fs, w.logs ++ [emptyWarnRecord]⟩⟩ := by
  simp [ServeHTTP, h]

theorem ServeHTTP_noFile (m : Config) (repl : Repl) (env : IOEnv)
    (next : Option String) (w : World) (c : String)
    (hc2 : TrimSpace (ReplaceAll repl m.Content "") = c) (hc : c ≠ "")
    (hf : ReplaceAll repl m.File "" = "") :
    ServeHTTP m (some repl) env next w
      = ⟨.fromNext next, ⟨w.fs, w.logs ++ loggerSinkLogs m c⟩⟩ := by
  subst hc2
  by_cases hL : m.LoggerSuffix = "" <;>
    simp [ServeHTTP, hc, hf, hL, loggerSinkLogs]

theorem ServeHTTP_openFail (m : Config) (repl : Repl) (env : IOEnv)
    (next : Option String) (w : World) (c p e : String)
    (hc2 : TrimSpace (ReplaceAll repl m.Content "") = c) (hc : c ≠ "")
    (hp : ReplaceAll repl m.File "" = p) (hpne : p ≠ "")
    (ho : env.openErr p = some e) :
    ServeHTTP m (some repl) env next w
      = ⟨.fromNext next,
         ⟨w.fs, (w.logs ++ loggerSinkLogs m c) ++ [openErrorRecord p e]⟩⟩ := by
  subst hc2; subst hp
  by_cases hL : m.LoggerSuffix = "" <;>
    simp [ServeHTTP, hc, hpne, ho, hL, loggerSinkLogs]

theorem ServeHTTP_writeFail (m : Config) (repl : Repl) (env : IOEnv)
    (next : Option String) (w : World) (c p e : String)
    (hc2 : TrimSpace (ReplaceAll repl m.Content "") = c) (hc : c ≠ "")
    (hp : ReplaceAll repl m.File "" = p) (hpne : p ≠ "")
    (ho : env.openErr p = none) (hw : env.writeErr p = some e) :
    ServeHTTP m (some repl) env next w
      = ⟨.fromNext next,
         ⟨fsCreate w.fs p filePermissionsConst,
          (w.logs ++ loggerSinkLogs m c) ++ [writeErrorRecord e]⟩⟩ := by
  subst hc2; subst hp
  by_cases hL : m.LoggerSuffix = "" <;>
    simp [ServeHTTP, hc, hpne, ho, hw, hL, loggerSinkLogs]

theorem ServeHTTP_writeOk (m : Config) (repl : Repl) (env : IOEnv)
    (next : Option String) (w : World) (c p : String)
    (hc2 : TrimSpace (ReplaceAll repl m.Content "") = c) (hc : c ≠ "")
    (hp : ReplaceAll repl m.File "" = p) (hpne : p ≠ "")
    (ho : env.openErr p = none) (hw : env.writeErr p = none) :
    ServeHTTP m (some repl) env next w
      = ⟨.fromNext next,
         ⟨fsAppend (fsCreate w.fs p filePermissionsConst) p (c ++ "\n"),
          (w.logs ++ loggerSinkLogs m c) ++ [wroteDebugRecord p c]⟩⟩ := by
  subst hc2; subst hp
  by_cases hL : m.LoggerSuffix = "" <;>
    simp [ServeHTTP, hc, hpne, ho, hw, hL, loggerSinkLogs]

/-! Templates made only of placeholders, and the scan on them. -/

/-- Characters of the template `{k1}{k2}...{kn}`: a template consisting
only of the given placeholders. -/
def tmplChars : List String → List Char
  | [] => []
  | k :: ks => '{' :: (k.data ++ '}' :: tmplChars ks)

/-- The template string consisting only of the given placeholders. -/
def mkTemplate (keys : List String) : String :=
  String.mk (tmplChars keys)

/-- Concatenation of a list of strings in order. -/
def joinAll : List String → String
  | [] => ""
  | s :: rest => s ++ joinAll rest

theorem takeKey_spec (key tail : List Char) (h : '}' ∉ key) :
    takeKey (key ++ '}' :: tail) = some (key, tail) := by
  induction key with
  | nil => simp [takeKey]
  | cons c cs ih =>
    have hc : c ≠ '}' := fun e => h (e ▸ List.mem_cons_self c cs)
    have h' : '}' ∉ cs := fun hm => h (List.mem_cons_of_mem _ hm)
    simp [takeKey, hc, ih h']

theorem replaceChars_unresolved (repl : Repl) (keys : List String)
    (hk : ∀ k ∈ keys, lookupRepl repl k = none ∧ '}' ∉ k.data) :
    ∀ fuel, (tmplChars keys).length ≤ fuel →
      replaceChars repl [] fuel (tmplChars keys) = [] := by
  induction keys with
  | nil =>
    intro fuel _
    cases fuel <;> simp [tmplChars, replaceChars]
  | cons k ks ih =>
    intro fuel hfuel
    obtain ⟨h1, h2⟩ := hk k (List.mem_cons_self k ks)
    have hlen : (tmplChars (k :: ks)).length
        = k.data.length + (tmplChars ks).length + 2 := by
      simp [tmplChars]; omega
    cases fuel with
    | zero => omega
    | succ f =>
      have hmk : String.mk k.data = k := rfl
      have h1' : lookupRepl repl (String.mk k.data) = none := by rw [hmk]; exact h1
      show replaceChars repl [] (f + 1) ('{' :: (k.data ++ '}' :: tmplChars ks)) = []
      rw [replaceChars]
      simp only [if_pos rfl, takeKey_spec k.data (tmplChars ks) h2, h1']
      exact ih (fun i hi => hk i (List.mem_cons_of_mem _ hi)) f (by omega)

theorem ReplaceAll_unresolved (repl : Repl) (keys : List String)
    (hk : ∀ k ∈ keys, lookupRepl repl k = none ∧ '}' ∉ k.data) :
    ReplaceAll repl (mkTemplate keys) "" = "" := by
  show String.mk (replaceChars repl "".data (tmplChars keys).length (tmplChars keys)) = ""
  rw [show "".data = ([] : List Char) from rfl,
    replaceChars_unresolved repl keys hk _ (Nat.le_refl _)]

/-! Log-sequence decomposition for the nonempty-content case. -/

theorem take_append_head {α : Type} (l : List α) (a : α) (r : List α) :
    (l ++ a :: r).take (l.length + 1) = l ++ [a] := by
  induction l with
  | nil => simp
  | cons x xs ih => simpa using ih

theorem ServeHTTP_logs_start (m : Config) (repl : Repl) (env : IOEnv)
    (next : Option String) (w : World) (c : String)
    (hc2 : TrimSpace (ReplaceAll repl m.Content "") = c) (hc : c ≠ "")
    (hs : m.LoggerSuffix ≠ "") :
    ∃ rest, (ServeHTTP m (some repl) env next w).world.logs
      = w.logs ++ contentInfoRecord m.LoggerSuffix c :: rest := by
  have hls : loggerSinkLogs m c = [contentInfoRecord m.LoggerSuffix c] := by
    simp [loggerSinkLogs, hs]
  by_cases hf : ReplaceAll repl m.File "" = ""
  · exact ⟨[], by rw [ServeHTTP_noFile m repl env next w c hc2 hc hf]; simp [hls]⟩
  · cases ho : env.openErr (ReplaceAll repl m.File "") with
    | some e =>
      exact ⟨[openErrorRecord (ReplaceAll repl m.File "") e], by
        rw [ServeHTTP_openFail m repl env next w c _ e hc2 hc rfl hf ho]
        simp [hls]⟩
    | none =>
      cases hw : env.writeErr (ReplaceAll repl m.File "") with
      | some e =>
        exact ⟨[writeErrorRecord e], by
          rw [ServeHTTP_writeFail m repl env next w c _ e hc2 hc rfl hf ho hw]
          simp [hls]⟩
      | none =>
        exact ⟨[wroteDebugRecord (ReplaceAll repl m.File "") c], by
          rw [ServeHTTP_writeOk m repl env next w c _ hc2 hc rfl hf ho hw]
          simp [hls]⟩

/-! Claim theorems. -/

/-- C1 (counterexample): the claim says ServeHTTP passes control to the
next handler and returns its result for every request, regardless of the
request context's contents; but on a request whose context carries no
replacer, ServeHTTP returns its own 500 error, which is not the next
handler's result. -/
theorem c1_counterexample :
    ServeHTTP ⟨"", "sfx", "x", ""⟩ none envNoErr none ⟨[], []⟩
        = ⟨.caddyErr 500, ⟨[], []⟩⟩
      ∧ ServeReturn.caddyErr 500 ≠ ServeReturn.fromNext none :=
  ⟨rfl, by decide⟩

/-- C1 (amended): for every request whose context carries a replacer of
the expected type, ServeHTTP passes control to the next handler and
returns its result; it never terminates the pipeline and never returns a
failure of its own, regardless of any I/O error. -/
theorem c1_amended_continue (m : Config) (repl : Repl) (env : IOEnv)
    (next : Option String) (w : World) :
    (ServeHTTP m (some repl) env next w).ret = .fromNext next := by
  by_cases hc : TrimSpace (ReplaceAll repl m.Content "") = ""
  · rw [ServeHTTP_skip m repl env next w hc]
  · by_cases hf : ReplaceAll repl m.File "" = ""
    · rw [ServeHTTP_noFile m repl env next w _ rfl hc hf]
    · cases ho : env.openErr (ReplaceAll repl m.File "") with
      | some e => rw [ServeHTTP_openFail m repl env next w _ _ e rfl hc rfl hf ho]
      | none =>
        cases hw : env.writeErr (ReplaceAll repl m.File "") with
        | some e => rw [ServeHTTP_writeFail m repl env next w _ _ e rfl hc rfl hf ho hw]
        | none => rw [ServeHTTP_writeOk m repl env next w _ _ rfl hc rfl hf ho hw]

/-- C2 (code evaluated at the failing input): a configuration parsed with
`file_permissions "600"` stores "600" in the FilePermissions field, yet
the file created by ServeHTTP carries the hardcoded mode 0644, not the
configured 0600. -/
theorem c2_file_permissions_ignored :
    UnmarshalCaddyfile {}
        [("content", "x"), ("file", "out.log"), ("file_permissions", "600")]
        = .ok ⟨"out.log", "", "x", "600"⟩
      ∧ fsFind (ServeHTTP ⟨"out.log", "", "x", "600"⟩ (some []) envNoErr none
            ⟨[], []⟩).world.fs "out.log"
          = some ⟨filePermissionsConst, "x\n"⟩
      ∧ filePermissionsConst = 0o644 ∧ filePermissionsConst ≠ 0o600 :=
  ⟨rfl, rfl, rfl, by decide⟩

/-- C3: with a configured file path template, each invocation whose
trimmed resolved content is non-empty and whose resolved path is the
non-empty path p (and whose open and write succeed) appends exactly the
trimmed content followed by a newline, and after N invocations on one
instance the file contents equal the initial contents followed by the N
lines in invocation order. -/
theorem c3_appends_in_order (m : Config) (_hm : m.File ≠ "")
    (p : String) (hpne : p ≠ "") (invs : List Invocation)
    (h : ∀ inv ∈ invs,
        ReplaceAll inv.repl m.File "" = p
        ∧ TrimSpace (ReplaceAll inv.repl m.Content "") ≠ ""
        ∧ inv.env.openErr p = none ∧ inv.env.writeErr p = none)
    (w : World) :
    fsContent (runInvocations m invs w).fs p
      = fsContent w.fs p
        ++ joinAll (invs.map fun inv =>
            TrimSpace (ReplaceAll inv.repl m.Content "") ++ "\n") := by
  induction invs generalizing w with
  | nil => simp [runInvocations, joinAll]
  | cons inv rest ih =>
    obtain ⟨hp, hc, ho, hw⟩ := h inv (List.mem_cons_self inv rest)
    have hfs : fsContent (ServeHTTP m (some inv.repl) inv.env inv.next w).world.fs p
        = fsContent w.fs p
          ++ (TrimSpace (ReplaceAll inv.repl m.Content "") ++ "\n") := by
      rw [ServeHTTP_writeOk m inv.repl inv.env inv.next w _ p rfl hc hp hpne ho hw]
      exact fsContent_create_append w.fs p _ filePermissionsConst
    have hrest := ih (fun i hi => h i (List.mem_cons_of_mem _ hi))
      (ServeHTTP m (some inv.repl) inv.env inv.next w).world
    show fsContent (runInvocations m rest
        (ServeHTTP m (some inv.repl) inv.env inv.next w).world).fs p = _
    rw [hrest, hfs]
    simp [joinAll, String.append_assoc]

/-- C3 (witness): two invocations with content "hello" on a fresh world
leave the file "f.log" holding exactly two lines. -/
theorem c3_witness :
    fsContent (runInvocations ⟨"f.log", "", "hello", ""⟩
        [⟨[], envNoErr, none⟩, ⟨[], envNoErr, none⟩] ⟨[], []⟩).fs "f.log"
      = "hello\nhello\n" := by
  have h := c3_appends_in_order ⟨"f.log", "", "hello", ""⟩ (by decide)
    "f.log" (by decide) [⟨[], envNoErr, none⟩, ⟨[], envNoErr, none⟩]
    (by intro inv hinv
        simp only [List.mem_cons, List.not_mem_nil, or_false] at hinv
        rcases hinv with rfl | rfl <;> exact ⟨rfl, by decide, rfl, rfl⟩)
    ⟨[], []⟩
  rw [h]; decide

/-- C4: whenever the resolved content trims to the empty string
(including all-whitespace content), ServeHTTP touches neither sink,
appends exactly one warning record, and continues the pipeline with the
next handler's result. -/
theorem c4_empty_content_skips (m : Config) (repl : Repl) (env : IOEnv)
    (next : Option String) (w : World)
    (h : TrimSpace (ReplaceAll repl m.Content "") = "") :
    ServeHTTP m (some repl) env next w
        = ⟨.fromNext next, ⟨w.fs, w.logs ++ [emptyWarnRecord]⟩⟩
      ∧ emptyWarnRecord.level = .warn :=
  ⟨ServeHTTP_skip m repl env next w h, rfl⟩

/-- C4 (witness): with whitespace-only content "   " both sinks stay
untouched, one warning is appended and the pipeline continues. -/
theorem c4_witness :
    ServeHTTP ⟨"f.log", "sfx", "   ", ""⟩ (some []) envNoErr none ⟨[], []⟩
        = ⟨.fromNext none, ⟨[], [emptyWarnRecord]⟩⟩
      ∧ emptyWarnRecord.level = .warn :=
  c4_empty_content_skips ⟨"f.log", "sfx", "   ", ""⟩ [] envNoErr none ⟨[], []⟩
    (by decide)

/-- C5: Validate accepts a configuration exactly when the content
template is non-empty and at least one of the file path template and the
logger suffix is non-empty; equivalently it fails exactly when the
content template is empty or both sinks are empty. -/
theorem c5_validate_iff (m : Config) :
    Validate m = none ↔ m.Content ≠ "" ∧ (m.File ≠ "" ∨ m.LoggerSuffix ≠ "") := by
  unfold Validate
  by_cases h1 : m.File = "" <;> by_cases h2 : m.LoggerSuffix = "" <;>
    by_cases h3 : m.Content = "" <;> simp [h1, h2, h3]

/-- C6: when the file open fails, or the open succeeds and the write
fails, the error is logged as exactly one error-level record, nothing
else happens to that attempt (no retry), and ServeHTTP still returns the
next handler's result. -/
theorem c6_io_error_continues (m : Config) (repl : Repl) (env : IOEnv)
    (next : Option String) (w : World) (c p : String)
    (hc2 : TrimSpace (ReplaceAll repl m.Content "") = c) (hc : c ≠ "")
    (hp : ReplaceAll repl m.File "" = p) (hpne : p ≠ "") :
    (∀ e, env.openErr p = some e →
        ServeHTTP m (some repl) env next w
            = ⟨.fromNext next,
               ⟨w.fs, (w.logs ++ loggerSinkLogs m c) ++ [openErrorRecord p e]⟩⟩
          ∧ (openErrorRecord p e).level = .error)
    ∧ (∀ e, env.openErr p = none → env.writeErr p = some e →
        ServeHTTP m (some repl) env next w
            = ⟨.fromNext next,
               ⟨fsCreate w.fs p filePermissionsConst,
                (w.logs ++ loggerSinkLogs m c) ++ [writeErrorRecord e]⟩⟩
          ∧ (writeErrorRecord e).level = .error) :=
  ⟨fun e ho => ⟨ServeHTTP_openFail m repl env next w c p e hc2 hc hp hpne ho, rfl⟩,
   fun e ho hw => ⟨ServeHTTP_writeFail m repl env next w c p e hc2 hc hp hpne ho hw, rfl⟩⟩

/-- C6 (witness): with an environment whose open fails with "denied",
the outcome is the next handler's result plus one error record. -/
theorem c6_witness :
    ServeHTTP ⟨"f.log", "", "x", ""⟩ (some [])
        ⟨fun _ => some "denied", fun _ => none⟩ none ⟨[], []⟩
      = ⟨.fromNext none, ⟨[], [openErrorRecord "f.log" "denied"]⟩⟩ := by
  have h := (c6_io_error_continues ⟨"f.log", "", "x", ""⟩ []
      ⟨fun _ => some "denied", fun _ => none⟩ none ⟨[], []⟩ "x" "f.log"
      (by decide) (by decide) (by decide) (by decide)).1 "denied" rfl
  exact h.1

/-- C7: with a configured logger suffix and non-empty trimmed content c,
the emitted informational record is in the log with content field equal
to c; and when the file sink also runs successfully, the string written
to the file before the appended newline is that same c. -/
theorem c7_sinks_identical (m : Config) (repl : Repl) (env : IOEnv)
    (next : Option String) (w : World) (c : String)
    (hc2 : TrimSpace (ReplaceAll repl m.Content "") = c) (hc : c ≠ "")
    (hs : m.LoggerSuffix ≠ "") :
    (contentInfoRecord m.LoggerSuffix c
        ∈ (ServeHTTP m (some repl) env next w).world.logs
      ∧ (contentInfoRecord m.LoggerSuffix c).fields = [("content", c)])
    ∧ (∀ p, ReplaceAll repl m.File "" = p → p ≠ "" →
        env.openErr p = none → env.writeErr p = none →
        fsContent (ServeHTTP m (some repl) env next w).world.fs p
          = fsContent w.fs p ++ (c ++ "\n")) := by
  constructor
  · obtain ⟨rest, hlog⟩ := ServeHTTP_logs_start m repl env next w c hc2 hc hs
    exact ⟨by rw [hlog]; simp, rfl⟩
  · intro p hp hpne ho hw
    rw [ServeHTTP_writeOk m repl env next w c p hc2 hc hp hpne ho hw]
    exact fsContent_create_append w.fs p (c ++ "\n") filePermissionsConst

/-- C7 (witness): content " hi " with suffix "sfx" and file "f.log"
logs content field "hi" and writes the identical "hi" plus newline. -/
theorem c7_witness :
    contentInfoRecord "sfx" "hi"
        ∈ (ServeHTTP ⟨"f.log", "sfx", " hi ", ""⟩ (some []) envNoErr none
            ⟨[], []⟩).world.logs
      ∧ fsContent (ServeHTTP ⟨"f.log", "sfx", " hi ", ""⟩ (some []) envNoErr none
            ⟨[], []⟩).world.fs "f.log" = "hi\n" := by
  have h := c7_sinks_identical ⟨"f.log", "sfx", " hi ", ""⟩ [] envNoErr none
    ⟨[], []⟩ "hi" (by decide) (by decide) (by decide)
  refine ⟨h.1.1, ?_⟩
  have h2 := h.2 "f.log" (by decide) (by decide) rfl rfl
  rw [h2]; decide

/-- C8: when the request context carries no replacer of the expected
type, ServeHTTP returns the 500 error without the next handler's result
and leaves the world (both sinks) untouched. -/
theorem c8_missing_replacer (m : Config) (env : IOEnv)
    (next : Option String) (w : World) :
    ServeHTTP m none env next w = ⟨.caddyErr 500, w⟩ :=
  rfl

/-- C9: with a configured logger suffix and non-empty trimmed content,
the informational record sits immediately after the pre-existing log
records, for every error environment and file path template: it is
emitted before any file operation, hence also when the open or write
fails or the resolved path is empty. -/
theorem c9_logger_independent_of_file (m : Config) (repl : Repl) (env : IOEnv)
    (next : Option String) (w : World) (c : String)
    (hc2 : TrimSpace (ReplaceAll repl m.Content "") = c) (hc : c ≠ "")
    (hs : m.LoggerSuffix ≠ "") :
    ((ServeHTTP m (some repl) env next w).world.logs).take (w.logs.length + 1)
      = w.logs ++ [contentInfoRecord m.LoggerSuffix c] := by
  obtain ⟨rest, hlog⟩ := ServeHTTP_logs_start m repl env next w c hc2 hc hs
  rw [hlog]
  exact take_append_head w.logs (contentInfoRecord m.LoggerSuffix c) rest

/-- C9 (witness): even when the file open fails, the first log record is
the informational one of the logger sink. -/
theorem c9_witness :
    ((ServeHTTP ⟨"f.log", "sfx", "x", ""⟩ (some [])
        ⟨fun _ => some "denied", fun _ => none⟩ none ⟨[], []⟩).world.logs).take 1
      = [contentInfoRecord "sfx" "x"] := by
  have h := c9_logger_independent_of_file ⟨"f.log", "sfx", "x", ""⟩ []
    ⟨fun _ => some "denied", fun _ => none⟩ none ⟨[], []⟩ "x"
    (by decide) (by decide) (by decide)
  simpa using h

/-- C10: placeholders that cannot be resolved are replaced by the empty
string (not left verbatim, not an error): a template made only of
unresolvable placeholders resolves to the empty string, and a content
template of that shape makes ServeHTTP take the empty-content skip
branch. -/
theorem c10_unresolved_empty (repl : Repl) (keys : List String)
    (hk : ∀ k ∈ keys, lookupRepl repl k = none ∧ '}' ∉ k.data)
    (m : Config) (env : IOEnv) (next : Option String) (w : World)
    (hC : m.Content = mkTemplate keys) :
    ReplaceAll repl (mkTemplate keys) "" = ""
    ∧ ServeHTTP m (some repl) env next w
        = ⟨.fromNext next, ⟨w.fs, w.logs ++ [emptyWarnRecord]⟩⟩ := by
  have h1 := ReplaceAll_unresolved repl keys hk
  refine ⟨h1, ServeHTTP_skip m repl env next w ?_⟩
  rw [hC, h1]
  decide

/-- C10 (witness): the template consisting of the single unresolvable
placeholder "reqid" resolves to "" and takes the skip branch. -/
theorem c10_witness :
    ReplaceAll [] (mkTemplate ["reqid"]) "" = ""
    ∧ ServeHTTP ⟨"", "sfx", mkTemplate ["reqid"], ""⟩ (some []) envNoErr none
        ⟨[], []⟩
      = ⟨.fromNext none, ⟨[], [emptyWarnRecord]⟩⟩ :=
  c10_unresolved_empty [] ["reqid"] (by decide)
    ⟨"", "sfx", mkTemplate ["reqid"], ""⟩ envNoErr none ⟨[], []⟩ rfl

end PlaceholderDump
